import Mathlib

/-!
# Verification of `ethers-providers/src/provider.rs`

A shallow embedding of the `Provider` JSON-RPC façade. Each provider
operation is modelled as a function in a trace monad `M` that records, in
order, every RPC call handed to the transport, and whose outcome is either
a value, a `ProviderError`, or a panic (Rust process abort). Machine
integers (`U256`, `U64`, `H256`, `Address`) are modelled as `Nat`: the code
only moves them around, never does arithmetic on them. Durations are
milliseconds as `Nat`.

Components of the repository that live outside `provider.rs` (the `ens`
helper module, `PendingTransaction`, `SubscriptionStream`, ABI
encoding/decoding, the `Signature` type) are modelled from the spec; each
such definition carries a doc comment saying so.
-/

set_option autoImplicit false

namespace Eth

/-- Rust `BlockNumber` (ethers-core): a block tag or concrete number. -/
inductive BlockNumber where
  | latest
  | earliest
  | pending
  | number (n : Nat)
deriving DecidableEq

/-- Rust `BlockId` (ethers-core): a block hash or a number/tag. -/
inductive BlockId where
  | hash (h : Nat)
  | number (b : BlockNumber)
deriving DecidableEq

/-- Rust `NameOrAddress` (ethers-core): an ENS name or a raw address. -/
inductive NameOrAddress where
  | name (s : String)
  | address (a : Nat)
deriving DecidableEq

/-- Modelled from the spec: the calldata built by the `ens` helper module.
The spec treats ABI encoding as an external capability (§1) and only fixes
that the registry-lookup payload is determined by the name's node key, and
the resolver payload by a selector and the same key; we keep both
symbolic. -/
inductive CallData where
  | getResolver (name : String)
  | resolve (selector : Nat) (name : String)
deriving DecidableEq

/-- Rust `TransactionRequest` (ethers-core), the fields `provider.rs` touches.
`from_` and `to_` mirror the Rust fields `from` and `to` (Lean keywords). -/
structure TransactionRequest where
  from_ : Option Nat := none
  to_ : Option NameOrAddress := none
  gas : Option Nat := none
  gasPrice : Option Nat := none
  value : Option Nat := none
  data : Option CallData := none
  nonce : Option Nat := none
deriving DecidableEq

/-- Rust `Filter` (ethers-core log filter), kept to the fields the provider
serializes as one opaque object. -/
structure Filter where
  fromBlock : Option BlockNumber := none
  toBlock : Option BlockNumber := none
  address : Option Nat := none
deriving DecidableEq

/-- A mined `Transaction` (ethers-core); only a phantom payload for the
full-transaction block shape. -/
structure Transaction where
  hash : Nat
deriving DecidableEq

/-- Rust `Block<Tx>` (ethers-core), parameterized by the transaction shape. -/
structure Block (Tx : Type) where
  hash : Option Nat := none
  number : Option Nat := none
  transactions : List Tx := []
deriving DecidableEq

/-- A `Log` record (ethers-core); phantom payload for log streams. -/
structure Log where
  address : Nat
  data : List Nat
deriving DecidableEq

/-- The bytes returned by `eth_call`. ABI encoding is external (spec §1),
so resolver/registry return payloads are symbolic: an ABI-encoded address,
an ABI-encoded string, or raw uninterpreted bytes. -/
inductive BytesV where
  | abiAddress (a : Nat)
  | abiString (s : String)
  | raw (bs : List Nat)
deriving DecidableEq

/-- Rust `hex::FromHexError` (hex crate). -/
inductive FromHexError where
  | invalidHexCharacter (c : Char)
  | oddLength
  | invalidStringLength
deriving DecidableEq

/-- Rust `ProviderError` (`provider.rs` lines 66–85). The boxed transport error
is carried as its message string. -/
inductive ProviderError where
  | JsonRpcClientError (msg : String)
  | EnsError (name : String)
  | SerdeJson (msg : String)
  | HexError (e : FromHexError)
  | CustomError (msg : String)
deriving DecidableEq

/-- A serialized JSON-RPC parameter (`utils::serialize` output), one
constructor per value shape the provider sends. -/
inductive Value where
  | vaddr (a : Nat)
  | vhash (h : Nat)
  | vuint (n : Nat)
  | vstr (s : String)
  | vbool (b : Bool)
  | vblockId (b : BlockId)
  | vblockNum (b : BlockNumber)
  | vtx (t : TransactionRequest)
  | vfilter (f : Filter)
  | vdata (bs : List Nat)
deriving DecidableEq

/-- One JSON-RPC request as handed to the transport: method name and
positional parameters. -/
structure RpcCall where
  method : String
  params : List Value
deriving DecidableEq

/-- The wire result the transport hands back for one call, before typed
decoding. -/
inductive RespValue where
  | rstr (s : String)
  | ruint (n : Nat)
  | rbytes (b : BytesV)
  | rhash (h : Nat)
  | rbool (b : Bool)
  | rblockH (b : Option (Block Nat))
  | rblockF (b : Option (Block Transaction))
deriving DecidableEq

/-- Transport-level result: a successful wire value or a transport error
(carried as its message, as `ProviderError::JsonRpcClientError` boxes it). -/
inductive RpcOutcome where
  | success (v : RespValue)
  | failure (msg : String)
deriving DecidableEq

/-- The transport capability (`JsonRpcClient`): answers one call. -/
def Transport : Type := RpcCall → RpcOutcome

/-- Rust `Provider<P>` (`provider.rs` line 52): the tuple struct
`Provider(P, Option<Address>, Option<Duration>, Option<Address>)`.
Field 0 is the transport, field 1 the ENS override address, field 2 the
poll interval, field 3 the default sender. -/
structure Provider where
  transport : Transport
  ensAddr : Option Nat
  pollInterval : Option Nat
  sender : Option Nat

/-- Outcome of running a provider operation: a value, a `ProviderError`
(Rust `Err`), or a panic (Rust process abort via `expect`/`unreachable`). -/
inductive Outcome (α : Type) where
  | ok (a : α)
  | fail (e : ProviderError)
  | panic (msg : String)
deriving DecidableEq

/-- The trace monad: a provider operation consumes the trace of calls so
far and returns its outcome together with the extended trace. -/
def M (α : Type) : Type := List RpcCall → Outcome α × List RpcCall

def M.pure {α : Type} (a : α) : M α := fun tr => (.ok a, tr)

def M.bind {α β : Type} (m : M α) (f : α → M β) : M β := fun tr =>
  match m tr with
  | (.ok a, tr') => f a tr'
  | (.fail e, tr') => (.fail e, tr')
  | (.panic s, tr') => (.panic s, tr')

instance : Monad M where
  pure := M.pure
  bind := M.bind

/-- Rust `return Err(e)` / `?` on an error value. -/
def M.failOut {α : Type} (e : ProviderError) : M α := fun tr => (.fail e, tr)

/-- Rust panic (`expect`, `unreachable!`). -/
def M.panicOut {α : Type} (msg : String) : M α := fun tr => (.panic msg, tr)

/-- Rust `Result::is_ok()` applied to an operation's outcome: failures
become `false`, panics still propagate. -/
def M.isOk {α : Type} (m : M α) : M Bool := fun tr =>
  match m tr with
  | (.ok _, tr') => (.ok true, tr')
  | (.fail _, tr') => (.ok false, tr')
  | (.panic s, tr') => (.panic s, tr')

/-- Rust `Provider::request` (`provider.rs` lines 112–129): issue the call on
the transport, record it in the trace, wrap transport errors as
`JsonRpcClientError`, and decode the wire value as the expected result
type `R` (serde), failing with a `SerdeJson` error on shape mismatch. -/
def Provider.request {R : Type} (p : Provider) (dec : RespValue → Option R)
    (method : String) (params : List Value) : M R := fun tr =>
  match p.transport ⟨method, params⟩ with
  | .success v =>
    match dec v with
    | some r => (.ok r, tr ++ [⟨method, params⟩])
    | none => (.fail (.SerdeJson method), tr ++ [⟨method, params⟩])
  | .failure msg => (.fail (.JsonRpcClientError msg), tr ++ [⟨method, params⟩])

/-- serde decoder for quantity results (`U256`/`U64`). -/
def decUint : RespValue → Option Nat
  | .ruint n => some n
  | _ => none

/-- serde decoder for string results. -/
def decStr : RespValue → Option String
  | .rstr s => some s
  | _ => none

/-- serde decoder for `Bytes` results (`eth_call`). -/
def decBytes : RespValue → Option BytesV
  | .rbytes b => some b
  | _ => none

/-- serde decoder for `TxHash`/`H256` results. -/
def decHash : RespValue → Option Nat
  | .rhash h => some h
  | _ => none

/-- serde decoder for boolean results. -/
def decBool : RespValue → Option Bool
  | .rbool b => some b
  | _ => none

/-- serde decoder for `Option<Block<TxHash>>` results. -/
def decBlockH : RespValue → Option (Option (Block Nat))
  | .rblockH b => some b
  | _ => none

/-- serde decoder for `Option<Block<Transaction>>` results. -/
def decBlockF : RespValue → Option (Option (Block Transaction))
  | .rblockF b => some b
  | _ => none

/-- Modelled from the spec: the default poll interval, "a fixed default,
e.g. several seconds" (§6), documented in the code as 7 seconds
(`DEFAULT_POLL_INTERVAL` lives in `stream.rs`, outside `provider.rs`).
Milliseconds. -/
def DEFAULT_POLL_INTERVAL : Nat := 7000

/-- Rust `Provider::new` (`provider.rs` lines 103–105). -/
def Provider.new (t : Transport) : Provider := ⟨t, none, none, none⟩

/-- Rust `Provider::with_sender` (`provider.rs` lines 107–110): sets field 3. -/
def Provider.with_sender (p : Provider) (address : Nat) : Provider :=
  { p with sender := some address }

/-- Rust `Provider::ens` (`provider.rs` lines 697–700): sets field 1. -/
def Provider.ens (p : Provider) (e : Nat) : Provider :=
  { p with ensAddr := some e }

/-- Rust `Provider::interval` (`provider.rs` lines 704–707): sets field 2. -/
def Provider.interval (p : Provider) (i : Nat) : Provider :=
  { p with pollInterval := some i }

/-- Rust `Provider::get_interval` (`provider.rs` lines 711–713). -/
def Provider.get_interval (p : Provider) : Nat :=
  p.pollInterval.getD DEFAULT_POLL_INTERVAL

/-! ## ABI tokens and the ENS helper module -/

/-- Rust `abi::ParamType`, restricted to the two shapes the resolver protocol
uses. -/
inductive ParamType where
  | address
  | string
deriving DecidableEq

/-- Rust `abi::Token`, restricted to the two shapes the resolver protocol
uses. -/
inductive Token where
  | address (a : Nat)
  | str (s : String)
deriving DecidableEq

/-- Modelled from the spec: `abi::decode` is an external capability (§1).
On the symbolic payloads, an ABI address payload decodes as an address
token, an ABI string payload as a string token; anything else fails. -/
def abiDecode : ParamType → BytesV → Option (List Token)
  | .address, .abiAddress a => some [.address a]
  | .string, .abiString s => some [.str s]
  | _, _ => none

/-- Rust `Detokenize` for `Address`. -/
def addressFromTokens : List Token → Option Nat
  | [.address a] => some a
  | _ => none

/-- Rust `Detokenize` for `String`. -/
def stringFromTokens : List Token → Option String
  | [.str s] => some s
  | _ => none

/-- Rust `decode_bytes` (`provider.rs` lines 760–764): "infallible" conversion
of bytes to an `Address`/`String`; both `expect`s abort the process when
decoding fails. -/
def decode_bytes {T : Type} (detok : List Token → Option T) (param : ParamType)
    (bytes : BytesV) : Outcome T :=
  match abiDecode param bytes with
  | none => .panic "could not abi-decode bytes to address tokens"
  | some tokens =>
    match detok tokens with
    | none => .panic "could not parse tokens as address"
    | some t => .ok t

/-- Lift a pure Rust expression (value or panic) into the trace monad. -/
def M.ofOutcome {α : Type} (o : Outcome α) : M α := fun tr => (o, tr)

namespace Ens

/-- Modelled from the spec: the well-known default registry address used
when no override is configured (mainnet ENS registry). -/
def ENS_ADDRESS : Nat := 0x00000000000C2E074eC69A0dFb2997BA6C7d2e1e

/-- Modelled from the spec: the fixed "resolve address" selector
(`addr(bytes32)`). -/
def ADDR_SELECTOR : Nat := 0x3b3b57de

/-- Modelled from the spec: the fixed "resolve name" selector
(`name(bytes32)`). -/
def NAME_SELECTOR : Nat := 0x691f3431

/-- Modelled from the spec: `ens::get_resolver` builds the read-only call
to the registry asking for the resolver of `name`'s node key. -/
def get_resolver (ens_address : Nat) (name : String) : TransactionRequest :=
  { to_ := some (.address ens_address), data := some (.getResolver name) }

/-- Modelled from the spec: `ens::resolve` builds the read-only call to
the resolver with the fixed selector and the same name key. -/
def resolve (resolver_address : Nat) (selector : Nat) (name : String) :
    TransactionRequest :=
  { to_ := some (.address resolver_address), data := some (.resolve selector name) }

/-- Modelled from the spec: `ens::reverse_address` builds the canonical
reverse-lookup key, a textual transform of the address into the registry's
reverse namespace. -/
def reverse_address (address : Nat) : String :=
  String.mk (Nat.toDigits 16 address) ++ ".addr.reverse"

end Ens

/-! ## Hex-string helpers (hex crate, `str::replace`, `str::strip_prefix`) -/

/-- Value of one hex digit, `none` for a non-hex character. -/
def hexDigit? (c : Char) : Option Nat :=
  if '0' ≤ c ∧ c ≤ '9' then some (c.toNat - '0'.toNat)
  else if 'a' ≤ c ∧ c ≤ 'f' then some (c.toNat - 'a'.toNat + 10)
  else if 'A' ≤ c ∧ c ≤ 'F' then some (c.toNat - 'A'.toNat + 10)
  else none

/-- Decode hex digit pairs into bytes (`hex::FromHex` body). -/
def pairsDecode : List Char → Except FromHexError (List Nat)
  | [] => .ok []
  | [_] => .error .oddLength
  | c1 :: c2 :: rest =>
    match hexDigit? c1, hexDigit? c2 with
    | some hi, some lo =>
      match pairsDecode rest with
      | .ok bs => .ok ((16 * hi + lo) :: bs)
      | .error e => .error e
    | none, _ => .error (.invalidHexCharacter c1)
    | some _, none => .error (.invalidHexCharacter c2)

/-- Rust `Vec::from_hex` (hex crate): reject odd lengths, then decode pairs. -/
def from_hex (s : List Char) : Except FromHexError (List Nat) :=
  if s.length % 2 = 1 then .error .oddLength else pairsDecode s

/-- Rust `value.replace("0x", "")` specialized to the constant pattern
`"0x"` and empty replacement: remove every non-overlapping occurrence,
scanning left to right. -/
def replace0x : List Char → List Char
  | [] => []
  | [c] => [c]
  | c1 :: c2 :: rest =>
    if c1 = '0' ∧ c2 = 'x' then replace0x rest
    else c1 :: replace0x (c2 :: rest)

/-- Rust `sig.strip_prefix("0x").unwrap_or(&sig)`: drop one leading
`"0x"` if present. -/
def strip0x (s : List Char) : List Char :=
  match s with
  | c1 :: c2 :: rest => if c1 = '0' ∧ c2 = 'x' then rest else c1 :: c2 :: rest
  | _ => s

/-! ## Externally defined result types, modelled from the spec -/

/-- Modelled from the spec: the fixed-size signature value (`Signature`
in ethers-core, 65 bytes). Kept as its byte list. -/
structure Signature where
  bytes : List Nat
deriving DecidableEq

/-- Modelled from the spec: the error message `Signature::try_from`
produces for a slice that is not exactly signature-sized. -/
def SIG_LEN_ERROR : String := "invalid signature length"

/-- Modelled from the spec: `Signature::try_from(&[u8])` succeeds exactly
on 65-byte slices. -/
def sigTryFrom (bs : List Nat) : Except String Signature :=
  if bs.length = 65 then .ok ⟨bs⟩ else .error SIG_LEN_ERROR

/-- Modelled from the spec: `PendingTransaction` (defined outside
`provider.rs`): wraps the submitted transaction's hash, which is available
immediately, and the poll cadence used while waiting for the receipt.
Only the two fields the provider seeds. -/
structure PendingTransaction where
  tx_hash : Nat
  pollInterval : Nat
deriving DecidableEq

/-- Modelled from the spec: `PendingTransaction::new` starts from the
default poll interval. -/
def PendingTransaction.new (tx_hash : Nat) : PendingTransaction :=
  ⟨tx_hash, DEFAULT_POLL_INTERVAL⟩

/-- Modelled from the spec: `PendingTransaction::interval` overrides the
poll cadence. -/
def PendingTransaction.interval (pt : PendingTransaction) (d : Nat) :
    PendingTransaction :=
  { pt with pollInterval := d }

/-- Modelled from the spec: `SubscriptionStream` (defined outside
`provider.rs`) is registered against the subscription identifier returned
by `eth_subscribe`; `R` is the phantom item type the stream decodes. -/
structure SubscriptionStream (R : Type) where
  id : Nat
deriving DecidableEq

/-- Modelled from the spec: `SubscriptionStream::new(id, provider)`
registers the stream with the transport's push channel under `id`. -/
def SubscriptionStream.new (R : Type) (id : Nat) :
    Except ProviderError (SubscriptionStream R) :=
  .ok ⟨id⟩

/-! ## Provider operations (`provider.rs` `Middleware` impl) -/

/-- Rust `Provider::call` (`provider.rs` lines 264–272): `eth_call` with the
serialized transaction and the block defaulted to `Latest`. -/
def Provider.call (p : Provider) (tx : TransactionRequest)
    (block : Option BlockId) : M BytesV :=
  p.request decBytes "eth_call" [.vtx tx, .vblockId (block.getD (.number .latest))]

/-- Rust `Provider::estimate_gas` (`provider.rs` lines 277–279). -/
def Provider.estimate_gas (p : Provider) (tx : TransactionRequest) : M Nat :=
  p.request decUint "eth_estimateGas" [.vtx tx]

/-- Rust `Provider::query_resolver` (`provider.rs` lines 656–682): the two-hop
ENS protocol. Registry lookup, zero-resolver check, then the resolver
call; both payloads decoded by `decode_bytes` (which panics on decode
failure). -/
def Provider.query_resolver {T : Type} (p : Provider)
    (detok : List Token → Option T) (param : ParamType) (ens_name : String)
    (selector : Nat) : M T := do
  let ens_addr := p.ensAddr.getD Ens.ENS_ADDRESS
  let data ← p.call (Ens.get_resolver ens_addr ens_name) none
  let resolver_address ← M.ofOutcome (decode_bytes addressFromTokens .address data)
  if resolver_address = 0 then
    M.failOut (.EnsError ens_name)
  else do
    let data ← p.call (Ens.resolve resolver_address selector ens_name) none
    M.ofOutcome (decode_bytes detok param data)

/-- Rust `Provider::resolve_name` (`provider.rs` lines 478–481). -/
def Provider.resolve_name (p : Provider) (ens_name : String) : M Nat :=
  p.query_resolver addressFromTokens .address ens_name Ens.ADDR_SELECTOR

/-- Rust `Provider::lookup_address` (`provider.rs` lines 488–492). -/
def Provider.lookup_address (p : Provider) (address : Nat) : M String :=
  p.query_resolver stringFromTokens .string (Ens.reverse_address address)
    Ens.NAME_SELECTOR

/-- Rust `Provider::get_block_gen` (`provider.rs` lines 131–150): dispatch on
the identifier kind, `include_txs` as second positional parameter, result
decoded at the caller-selected transaction shape. -/
def Provider.get_block_gen {Tx : Type} (p : Provider)
    (dec : RespValue → Option (Option (Block Tx))) (id : BlockId)
    (include_txs : Bool) : M (Option (Block Tx)) :=
  match id with
  | .hash h => p.request dec "eth_getBlockByHash" [.vhash h, .vbool include_txs]
  | .number num =>
    p.request dec "eth_getBlockByNumber" [.vblockNum num, .vbool include_txs]

/-- Rust `Provider::get_block` (`provider.rs` lines 177–182): hash-only
transaction shape. -/
def Provider.get_block (p : Provider) (block_hash_or_number : BlockId) :
    M (Option (Block Nat)) :=
  p.get_block_gen decBlockH block_hash_or_number false

/-- Rust `Provider::get_block_with_txs` (`provider.rs` lines 185–190): full
transaction objects. -/
def Provider.get_block_with_txs (p : Provider) (block_hash_or_number : BlockId) :
    M (Option (Block Transaction)) :=
  p.get_block_gen decBlockF block_hash_or_number true

/-- Rust `Provider::get_transaction_count` (`provider.rs` lines 221–234). -/
def Provider.get_transaction_count (p : Provider) (who : NameOrAddress)
    (block : Option BlockId) : M Nat := do
  let fromA ← match who with
    | .name ens_name => p.resolve_name ens_name
    | .address addr => M.pure addr
  p.request decUint "eth_getTransactionCount"
    [.vaddr fromA, .vblockId (block.getD (.number .latest))]

/-- Rust `Provider::get_balance` (`provider.rs` lines 237–250). -/
def Provider.get_balance (p : Provider) (who : NameOrAddress)
    (block : Option BlockId) : M Nat := do
  let fromA ← match who with
    | .name ens_name => p.resolve_name ens_name
    | .address addr => M.pure addr
  p.request decUint "eth_getBalance"
    [.vaddr fromA, .vblockId (block.getD (.number .latest))]

/-- Rust `Provider::get_code` (`provider.rs` lines 450–463). -/
def Provider.get_code (p : Provider) (at_ : NameOrAddress)
    (block : Option BlockId) : M BytesV := do
  let atA ← match at_ with
    | .name ens_name => p.resolve_name ens_name
    | .address addr => M.pure addr
  p.request decBytes "eth_getCode"
    [.vaddr atA, .vblockId (block.getD (.number .latest))]

/-- Rust `Provider::get_storage_at` (`provider.rs` lines 425–447): fetch the
hex-encoded storage word, strip `"0x"`, left-pad with `'0'` to 64 digits
(`format!("{:0>64}", …)`), hex-decode, and build the `H256` (which panics
off a non-32-byte slice). -/
def Provider.get_storage_at (p : Provider) (who : NameOrAddress)
    (location : Nat) (block : Option BlockId) : M (List Nat) := do
  let fromA ← match who with
    | .name ens_name => p.resolve_name ens_name
    | .address addr => M.pure addr
  let value ← p.request decStr "eth_getStorageAt"
    [.vaddr fromA, .vhash location, .vblockId (block.getD (.number .latest))]
  match from_hex (List.replicate (64 - (replace0x value.data).length) '0'
      ++ replace0x value.data) with
  | .error e => M.failOut (.HexError e)
  | .ok bs =>
    if bs.length = 32 then M.pure bs
    else M.panicOut "H256::from_slice: slice length must be 32"

/-- Rust `Provider::sign` (`provider.rs` lines 330–346): `eth_sign`, strip an
optional `"0x"`, hex-decode, convert to the fixed-size signature, mapping
its error to `CustomError`. -/
def Provider.sign (p : Provider) (data : List Nat) (fromA : Nat) : M Signature := do
  let sig ← p.request decStr "eth_sign" [.vaddr fromA, .vdata data]
  let sig := strip0x sig.data
  match from_hex sig with
  | .error e => M.failOut (.HexError e)
  | .ok bytes =>
    match sigTryFrom bytes with
    | .ok s => M.pure s
    | .error msg => M.failOut (.CustomError msg)

/-- Rust `Provider::is_signer` (`provider.rs` lines 322–327). -/
def Provider.is_signer (p : Provider) : M Bool :=
  match p.sender with
  | some sender => M.isOk (p.sign [] sender)
  | none => M.pure false

/-- Rust `Provider::send_transaction` (`provider.rs` lines 283–307). -/
def Provider.send_transaction (p : Provider) (tx : TransactionRequest)
    (_block : Option BlockId) : M PendingTransaction := do
  let tx := if tx.from_.isNone then { tx with from_ := p.sender } else tx
  let tx ← if tx.gas.isNone then do
      let g ← p.estimate_gas tx
      M.pure { tx with gas := some g }
    else M.pure tx
  let tx ← match tx.to_ with
    | some (.name ens_name) => do
        let addr ← p.resolve_name ens_name
        M.pure { tx with to_ := some (.address addr) }
    | _ => M.pure tx
  let tx_hash ← p.request decHash "eth_sendTransaction" [.vtx tx]
  M.pure ((PendingTransaction.new tx_hash).interval p.get_interval)

/-- Rust `Provider::subscribe` (`provider.rs` lines 603–614): `eth_subscribe`
with the caller's parameter list, then register the stream under the
returned identifier. -/
def Provider.subscribe (R : Type) (p : Provider) (params : List Value) :
    M (SubscriptionStream R) := do
  let id ← p.request decUint "eth_subscribe" params
  match SubscriptionStream.new R id with
  | .ok s => M.pure s
  | .error e => M.failOut e

/-- Rust `Provider::subscribe_blocks` (`provider.rs` lines 624–631). -/
def Provider.subscribe_blocks (p : Provider) : M (SubscriptionStream (Block Nat)) :=
  p.subscribe (Block Nat) [.vstr "newHeads"]

/-- Rust `Provider::subscribe_pending_txs` (`provider.rs` lines 633–640). -/
def Provider.subscribe_pending_txs (p : Provider) : M (SubscriptionStream Nat) :=
  p.subscribe Nat [.vstr "newPendingTransactions"]

/-- Rust `Provider::subscribe_logs` (`provider.rs` lines 642–652). -/
def Provider.subscribe_logs (p : Provider) (filter : Filter) :
    M (SubscriptionStream Log) :=
  p.subscribe Log [.vstr "logs", .vfilter filter]

/-! ## Call-shape abbreviations used in theorem statements -/

/-- The `eth_estimateGas` request `estimate_gas` issues for `tx`. -/
def estimateCall (tx : TransactionRequest) : RpcCall :=
  ⟨"eth_estimateGas", [.vtx tx]⟩

/-- The registry-lookup `eth_call` the two-hop resolver issues first. -/
def registryCall (ensA : Nat) (name : String) : RpcCall :=
  ⟨"eth_call", [.vtx (Ens.get_resolver ensA name), .vblockId (.number .latest)]⟩

/-- The resolver `eth_call` the two-hop resolver issues second. -/
def resolverCall (resolver sel : Nat) (name : String) : RpcCall :=
  ⟨"eth_call", [.vtx (Ens.resolve resolver sel name), .vblockId (.number .latest)]⟩

/-- The `eth_sendTransaction` request `send_transaction` issues for `tx`. -/
def submitCall (tx : TransactionRequest) : RpcCall :=
  ⟨"eth_sendTransaction", [.vtx tx]⟩

/-! ## Concrete transports used to evaluate the theorems -/

/-- Test transport: always fails; exercises paths that must not call it. -/
def tFail : Transport := fun _ => .failure "unreachable"

/-- Test transport: every call answers with the ABI encoding of the zero
address. -/
def tZeroResolver : Transport := fun _ => .success (.rbytes (.abiAddress 0))

/-- Test transport: every call answers with raw, non-ABI bytes. -/
def tRawResolver : Transport := fun _ => .success (.rbytes (.raw [1, 2, 3]))

/-- Test transport: every call answers the string `"0xab"`. -/
def tSign : Transport := fun _ => .success (.rstr "0xab")

/-- Test transport: every call answers the string `"0x2a"`. -/
def tStorage : Transport := fun _ => .success (.rstr "0x2a")

/-- Test transport: every call answers the quantity 3. -/
def tSub : Transport := fun _ => .success (.ruint 3)

/-- Test transport for the submission pipeline: gas estimate 21000,
registry answer resolver address 7, resolver answer address 8, submitted
transaction hash 99. -/
def tSend : Transport := fun c =>
  if c.method = "eth_estimateGas" then .success (.ruint 21000)
  else if c.method = "eth_sendTransaction" then .success (.rhash 99)
  else
    match c.params with
    | [.vtx t, _] =>
      match t.data with
      | some (.getResolver _) => .success (.rbytes (.abiAddress 7))
      | some (.resolve _ _) => .success (.rbytes (.abiAddress 8))
      | _ => .failure "x"
    | _ => .failure "x"

/-! ## Helper lemmas -/

@[simp]
theorem M.bind_eq {α β : Type} (m : M α) (f : α → M β) : m >>= f = M.bind m f :=
  rfl

@[simp]
theorem M.pure_eq {α : Type} (a : α) : (Pure.pure a : M α) = M.pure a :=
  rfl

/-- Rust `request` always records exactly its one call, whatever the transport
answers. -/
theorem request_trace {R : Type} (p : Provider) (dec : RespValue → Option R)
    (method : String) (params : List Value) (tr : List RpcCall) :
    (p.request dec method params tr).2 = tr ++ [⟨method, params⟩] := by
  simp only [Provider.request]
  split
  · split <;> rfl
  · rfl

/-- Happy path of the two-hop resolution protocol. -/
theorem resolve_name_ok (p : Provider) (nm : String) (r a : Nat) (tr : List RpcCall)
    (hreg : p.transport (registryCall (p.ensAddr.getD Ens.ENS_ADDRESS) nm)
      = .success (.rbytes (.abiAddress r)))
    (hr : r ≠ 0)
    (hres : p.transport (resolverCall r Ens.ADDR_SELECTOR nm)
      = .success (.rbytes (.abiAddress a))) :
    p.resolve_name nm tr
      = (.ok a, tr ++ [registryCall (p.ensAddr.getD Ens.ENS_ADDRESS) nm,
                       resolverCall r Ens.ADDR_SELECTOR nm]) := by
  simp only [registryCall, resolverCall] at hreg hres
  simp only [Provider.resolve_name, Provider.query_resolver, Provider.call,
    Provider.request, M.bind_eq, M.bind, M.pure_eq, M.pure, M.ofOutcome,
    M.failOut, registryCall, resolverCall, Option.getD_none]
  rw [hreg]
  simp only [decBytes, decode_bytes, abiDecode, addressFromTokens, if_neg hr]
  simp only [Provider.request, M.bind]
  rw [hres]
  simp [decBytes, decode_bytes, abiDecode, addressFromTokens, M.ofOutcome]

@[simp]
theorem M.pure_bind {α β : Type} (a : α) (f : α → M β) : M.bind (M.pure a) f = f a :=
  rfl

/-- A continuation that never touches the trace leaves `bind`'s trace to
its first stage. -/
theorem bind_trace_pure {α β : Type} (m : M α) (k : α → M β)
    (hk : ∀ (a : α) (tr : List RpcCall), (k a tr).2 = tr) (tr : List RpcCall) :
    (M.bind m k tr).2 = (m tr).2 := by
  unfold M.bind
  rcases h : m tr with ⟨o, tr'⟩
  cases o <;> simp [hk]

theorem M.bind_apply_ok {α β : Type} {m : M α} (k : α → M β)
    {tr tr' : List RpcCall} {x : α} (h : m tr = (.ok x, tr')) :
    M.bind m k tr = k x tr' := by
  unfold M.bind
  rw [h]

theorem M.bind_apply_fail {α β : Type} {m : M α} (k : α → M β)
    {tr tr' : List RpcCall} {e : ProviderError} (h : m tr = (.fail e, tr')) :
    M.bind m k tr = (.fail e, tr') := by
  unfold M.bind
  rw [h]

theorem request_apply_success {R : Type} (p : Provider) (dec : RespValue → Option R)
    (method : String) (params : List Value) (tr : List RpcCall) {v : RespValue}
    {r : R} (ht : p.transport ⟨method, params⟩ = .success v) (hd : dec v = some r) :
    p.request dec method params tr = (.ok r, tr ++ [⟨method, params⟩]) := by
  unfold Provider.request
  rw [ht]
  simp [hd]

theorem request_apply_failure {R : Type} (p : Provider) (dec : RespValue → Option R)
    (method : String) (params : List Value) (tr : List RpcCall) {msg : String}
    (ht : p.transport ⟨method, params⟩ = .failure msg) :
    p.request dec method params tr
      = (.fail (.JsonRpcClientError msg), tr ++ [⟨method, params⟩]) := by
  unfold Provider.request
  rw [ht]

theorem hexDigit_x : hexDigit? 'x' = none := by decide

theorem hexDigit_0 : hexDigit? '0' = some 0 := by decide

/-- Rust `replace("0x", "")` leaves a string of hex digits unchanged: the
pattern needs an `'x'`, which is not a hex digit. -/
theorem replace0x_of_all_hex :
    ∀ s : List Char, (∀ c ∈ s, (hexDigit? c).isSome) → replace0x s = s
  | [], _ => rfl
  | [c], _ => rfl
  | c1 :: c2 :: rest, h => by
    have h2 : (hexDigit? c2).isSome := h c2 (by simp)
    have hx : ¬(c1 = '0' ∧ c2 = 'x') := by
      rintro ⟨-, rfl⟩
      rw [hexDigit_x] at h2
      simp at h2
    simp only [replace0x, if_neg hx]
    congr 1
    exact replace0x_of_all_hex (c2 :: rest)
      (fun c hc => h c (List.mem_cons_of_mem _ hc))

/-- A string that hex-decodes successfully cannot start with `"0x"`, so
stripping the prefix is the identity on it. -/
theorem strip0x_of_from_hex_ok {bs : List Nat} :
    ∀ s : List Char, from_hex s = .ok bs → strip0x s = s
  | [], _ => rfl
  | [c], _ => rfl
  | c1 :: c2 :: rest, h => by
    simp only [strip0x]
    split
    · next hc =>
      exfalso
      obtain ⟨h1, h2⟩ := hc
      subst h1
      subst h2
      simp only [from_hex] at h
      split at h
      · simp at h
      · simp [pairsDecode, hexDigit_0, hexDigit_x] at h
    · rfl

/-- Hex-decoding an even run of `'0'`s prepended to a string left-pads
the decoded bytes with zero bytes. -/
theorem pairsDecode_pad (m : Nat) (s : List Char) :
    pairsDecode (List.replicate (2 * m) '0' ++ s)
      = match pairsDecode s with
        | .ok bs => .ok (List.replicate m 0 ++ bs)
        | .error e => .error e := by
  induction m with
  | zero =>
    simp only [Nat.mul_zero, List.replicate_zero, List.nil_append]
    cases pairsDecode s <;> simp
  | succ k ih =>
    have h2 : 2 * (k + 1) = (2 * k) + 1 + 1 := by ring
    rw [h2, List.replicate_succ, List.replicate_succ]
    simp only [List.cons_append, pairsDecode, hexDigit_0, List.append_eq]
    rw [ih]
    cases pairsDecode s <;> simp [List.replicate_succ]

/-- Decoded bytes are half as many as the hex digits. -/
theorem pairsDecode_length :
    ∀ (s : List Char) (bs : List Nat), pairsDecode s = .ok bs →
      2 * bs.length = s.length
  | [], bs, h => by
    simp only [pairsDecode] at h
    cases h
    rfl
  | [c], bs, h => by
    simp [pairsDecode] at h
  | c1 :: c2 :: rest, bs, h => by
    simp only [pairsDecode] at h
    cases h1 : hexDigit? c1 with
    | none => rw [h1] at h; simp at h
    | some hi =>
      cases h2 : hexDigit? c2 with
      | none => rw [h1, h2] at h; simp at h
      | some lo =>
        rw [h1, h2] at h
        cases hr : pairsDecode rest with
        | error e => rw [hr] at h; simp at h
        | ok bs' =>
          rw [hr] at h
          cases h
          have := pairsDecode_length rest bs' hr
          simp only [List.length_cons]
          omega

/-- Zero-resolver path of the two-hop resolution protocol. -/
theorem resolve_name_zero (p : Provider) (nm : String) (tr : List RpcCall)
    (hreg : p.transport (registryCall (p.ensAddr.getD Ens.ENS_ADDRESS) nm)
      = .success (.rbytes (.abiAddress 0))) :
    p.resolve_name nm tr
      = (.fail (.EnsError nm),
         tr ++ [registryCall (p.ensAddr.getD Ens.ENS_ADDRESS) nm]) := by
  simp only [registryCall] at hreg
  simp only [Provider.resolve_name, Provider.query_resolver, Provider.call,
    Provider.request, M.bind_eq, M.bind, M.pure_eq, M.pure, M.ofOutcome,
    M.failOut, registryCall, Option.getD_none]
  rw [hreg]
  simp [decBytes, decode_bytes, abiDecode, addressFromTokens, M.failOut]

/-- The submission tail of `send_transaction`, successful case: the
returned hash is wrapped with the provider's configured interval. -/
theorem pipeline_tail (p : Provider) (txf : TransactionRequest) (h : Nat)
    (tr R : List RpcCall)
    (hSend : p.transport (submitCall txf) = .success (.rhash h))
    (hR : tr ++ [submitCall txf] = R) :
    M.bind (p.request decHash "eth_sendTransaction" [.vtx txf])
        (fun tx_hash => M.pure ((PendingTransaction.new tx_hash).interval p.get_interval)) tr
      = (.ok ⟨h, p.get_interval⟩, R) := by
  rw [M.bind_apply_ok _ (request_apply_success p decHash "eth_sendTransaction"
    [.vtx txf] tr hSend rfl)]
  rw [← hR]
  rfl

/-- The submission tail of `send_transaction`, failing case. -/
theorem pipeline_tail_fail (p : Provider) (txf : TransactionRequest) (msg : String)
    (tr R : List RpcCall)
    (hSend : p.transport (submitCall txf) = .failure msg)
    (hR : tr ++ [submitCall txf] = R) :
    M.bind (p.request decHash "eth_sendTransaction" [.vtx txf])
        (fun tx_hash => M.pure ((PendingTransaction.new tx_hash).interval p.get_interval)) tr
      = (.fail (.JsonRpcClientError msg), R) := by
  rw [M.bind_apply_fail _ (request_apply_failure p decHash "eth_sendTransaction"
    [.vtx txf] tr hSend)]
  rw [← hR]
  rfl

/-! ## Theorems -/

/-- C10: Each builder-style configuration method modifies only its own
field of the `Provider` tuple and leaves the other three components —
in particular the transport handle — unchanged. -/
theorem builders_touch_only_their_field (p : Provider) (a e i : Nat) :
    ((p.with_sender a).transport = p.transport ∧
      (p.with_sender a).ensAddr = p.ensAddr ∧
      (p.with_sender a).pollInterval = p.pollInterval ∧
      (p.with_sender a).sender = some a) ∧
    ((p.ens e).transport = p.transport ∧
      (p.ens e).sender = p.sender ∧
      (p.ens e).pollInterval = p.pollInterval ∧
      (p.ens e).ensAddr = some e) ∧
    ((p.interval i).transport = p.transport ∧
      (p.interval i).sender = p.sender ∧
      (p.interval i).ensAddr = p.ensAddr ∧
      (p.interval i).pollInterval = some i) :=
  ⟨⟨rfl, rfl, rfl, rfl⟩, ⟨rfl, rfl, rfl, rfl⟩, ⟨rfl, rfl, rfl, rfl⟩⟩

/-- C6: Block lookup dispatches to `eth_getBlockByHash` for hash
identifiers and to `eth_getBlockByNumber` for number/tag identifiers,
passing `include_txs` as the second positional parameter; `get_block`
selects the hash-only transaction shape with `include_txs = false` and
`get_block_with_txs` the full-transaction shape with `include_txs =
true`. -/
theorem get_block_dispatch :
    (∀ (Tx : Type) (p : Provider) (dec : RespValue → Option (Option (Block Tx)))
        (h : Nat) (include_txs : Bool) (tr : List RpcCall),
      (p.get_block_gen dec (.hash h) include_txs tr).2
        = tr ++ [⟨"eth_getBlockByHash", [.vhash h, .vbool include_txs]⟩]) ∧
    (∀ (Tx : Type) (p : Provider) (dec : RespValue → Option (Option (Block Tx)))
        (num : BlockNumber) (include_txs : Bool) (tr : List RpcCall),
      (p.get_block_gen dec (.number num) include_txs tr).2
        = tr ++ [⟨"eth_getBlockByNumber", [.vblockNum num, .vbool include_txs]⟩]) ∧
    (∀ (p : Provider) (id : BlockId),
      p.get_block id = p.get_block_gen decBlockH id false) ∧
    (∀ (p : Provider) (id : BlockId),
      p.get_block_with_txs id = p.get_block_gen decBlockF id true) :=
  ⟨fun _ p dec _ _ tr => request_trace p dec _ _ tr,
   fun _ p dec _ _ tr => request_trace p dec _ _ tr,
   fun _ _ => rfl, fun _ _ => rfl⟩

/-- C7: The name-or-address operations resolve a name argument through
the resolver before issuing the underlying call (each is the resolver
bound in front of its address-typed form), and an omitted block argument
is defaulted to the `latest` tag in the issued call. -/
theorem normalize_name_and_block :
    (∀ (p : Provider) (n : String) (b : Option BlockId),
      p.get_transaction_count (.name n) b
        = M.bind (p.resolve_name n) (fun a => p.get_transaction_count (.address a) b)) ∧
    (∀ (p : Provider) (a : Nat) (b : Option BlockId) (tr : List RpcCall),
      (p.get_transaction_count (.address a) b tr).2
        = tr ++ [⟨"eth_getTransactionCount",
            [.vaddr a, .vblockId (b.getD (.number .latest))]⟩]) ∧
    (∀ (p : Provider) (n : String) (b : Option BlockId),
      p.get_balance (.name n) b
        = M.bind (p.resolve_name n) (fun a => p.get_balance (.address a) b)) ∧
    (∀ (p : Provider) (a : Nat) (b : Option BlockId) (tr : List RpcCall),
      (p.get_balance (.address a) b tr).2
        = tr ++ [⟨"eth_getBalance",
            [.vaddr a, .vblockId (b.getD (.number .latest))]⟩]) ∧
    (∀ (p : Provider) (n : String) (b : Option BlockId),
      p.get_code (.name n) b
        = M.bind (p.resolve_name n) (fun a => p.get_code (.address a) b)) ∧
    (∀ (p : Provider) (a : Nat) (b : Option BlockId) (tr : List RpcCall),
      (p.get_code (.address a) b tr).2
        = tr ++ [⟨"eth_getCode",
            [.vaddr a, .vblockId (b.getD (.number .latest))]⟩]) ∧
    (∀ (p : Provider) (n : String) (loc : Nat) (b : Option BlockId),
      p.get_storage_at (.name n) loc b
        = M.bind (p.resolve_name n) (fun a => p.get_storage_at (.address a) loc b)) ∧
    (∀ (p : Provider) (a loc : Nat) (b : Option BlockId) (tr : List RpcCall),
      (p.get_storage_at (.address a) loc b tr).2
        = tr ++ [⟨"eth_getStorageAt",
            [.vaddr a, .vhash loc, .vblockId (b.getD (.number .latest))]⟩]) ∧
    (∀ (p : Provider) (tx : TransactionRequest) (tr : List RpcCall),
      (p.call tx none tr).2
        = tr ++ [⟨"eth_call", [.vtx tx, .vblockId (.number .latest)]⟩]) := by
  refine ⟨fun p n b => rfl, fun p a b tr => ?_, fun p n b => rfl, fun p a b tr => ?_,
    fun p n b => rfl, fun p a b tr => ?_, fun p n loc b => rfl,
    fun p a loc b tr => ?_, fun p tx tr => request_trace p decBytes _ _ tr⟩
  · exact request_trace p decUint _ _ tr
  · exact request_trace p decUint _ _ tr
  · exact request_trace p decBytes _ _ tr
  · simp only [Provider.get_storage_at, M.bind_eq, M.pure_eq, M.pure_bind]
    rw [bind_trace_pure]
    · exact request_trace p decStr _ _ tr
    · intro v tr'
      cases hfh : from_hex (List.replicate (64 - (replace0x v.data).length) '0'
          ++ replace0x v.data) with
      | error e => simp [hfh, M.failOut]
      | ok bs =>
        simp only [hfh]
        split <;> rfl

/-- C8: Subscription creation issues `eth_subscribe` with the
topic-specific parameter list — `["newHeads"]`, `["newPendingTransactions"]`,
or `["logs", filter]` — and the returned stream is registered against the
subscription identifier the call returns. -/
theorem subscribe_params (p : Provider) (tr : List RpcCall) :
    (∀ i : Nat,
      p.transport ⟨"eth_subscribe", [.vstr "newHeads"]⟩ = .success (.ruint i) →
      p.subscribe_blocks tr
        = (.ok ⟨i⟩, tr ++ [⟨"eth_subscribe", [.vstr "newHeads"]⟩])) ∧
    (∀ i : Nat,
      p.transport ⟨"eth_subscribe", [.vstr "newPendingTransactions"]⟩
        = .success (.ruint i) →
      p.subscribe_pending_txs tr
        = (.ok ⟨i⟩, tr ++ [⟨"eth_subscribe", [.vstr "newPendingTransactions"]⟩])) ∧
    (∀ (i : Nat) (f : Filter),
      p.transport ⟨"eth_subscribe", [.vstr "logs", .vfilter f]⟩ = .success (.ruint i) →
      p.subscribe_logs f tr
        = (.ok ⟨i⟩, tr ++ [⟨"eth_subscribe", [.vstr "logs", .vfilter f]⟩])) := by
  refine ⟨fun i ht => ?_, fun i ht => ?_, fun i f ht => ?_⟩ <;>
  · simp only [Provider.subscribe_blocks, Provider.subscribe_pending_txs,
      Provider.subscribe_logs, Provider.subscribe, SubscriptionStream.new,
      M.bind_eq, M.bind, M.pure_eq, M.pure, Provider.request]
    rw [ht]
    simp [decUint]

/-- Witness for C8 on a concrete transport answering subscription id 3. -/
theorem subscribe_params_witness :
    tSub ⟨"eth_subscribe", [.vstr "newHeads"]⟩ = .success (.ruint 3) ∧
    (Provider.new tSub).subscribe_blocks []
      = (.ok ⟨3⟩, [⟨"eth_subscribe", [.vstr "newHeads"]⟩]) ∧
    (Provider.new tSub).subscribe_pending_txs []
      = (.ok ⟨3⟩, [⟨"eth_subscribe", [.vstr "newPendingTransactions"]⟩]) ∧
    (Provider.new tSub).subscribe_logs {} []
      = (.ok ⟨3⟩, [⟨"eth_subscribe", [.vstr "logs", .vfilter {}]⟩]) :=
  ⟨rfl, (subscribe_params (Provider.new tSub) []).1 3 rfl,
   (subscribe_params (Provider.new tSub) []).2.1 3 rfl,
   (subscribe_params (Provider.new tSub) []).2.2 3 {} rfl⟩

/-- C9: `is_signer` answers `false` without any transport call when no
default sender is configured; with a configured sender it is exactly the
success test of a zero-length `sign` with that sender. -/
theorem is_signer_spec (p : Provider) :
    (p.sender = none → ∀ tr, p.is_signer tr = (.ok false, tr)) ∧
    (∀ s : Nat, p.sender = some s → p.is_signer = M.isOk (p.sign [] s)) ∧
    (∀ s : Nat, p.sender = some s → ∀ tr,
      ((p.is_signer tr).1 = .ok true ↔
        ∃ (sig : Signature) (tr' : List RpcCall),
          p.sign [] s tr = (.ok sig, tr'))) := by
  refine ⟨fun h tr => ?_, fun s h => ?_, fun s h tr => ?_⟩
  · simp [Provider.is_signer, h, M.pure]
  · simp [Provider.is_signer, h]
  · simp only [Provider.is_signer, h]
    rcases hs : p.sign [] s tr with ⟨o, tr'⟩
    cases o with
    | ok sig => simp [M.isOk, hs]
    | fail e => simp [M.isOk, hs]
    | panic m => simp [M.isOk, hs]

/-- Witness for C9: without a sender `is_signer` is `false` on an empty
trace; with sender 5 it equals the success test of the zero-length sign. -/
theorem is_signer_spec_witness :
    ((Provider.new tFail).sender = none ∧
      (Provider.new tFail).is_signer [] = (.ok false, [])) ∧
    (((Provider.new tSign).with_sender 5).sender = some 5 ∧
      ((Provider.new tSign).with_sender 5).is_signer
        = M.isOk (((Provider.new tSign).with_sender 5).sign [] 5)) :=
  ⟨⟨rfl, (is_signer_spec (Provider.new tFail)).1 rfl []⟩,
   ⟨rfl, (is_signer_spec ((Provider.new tSign).with_sender 5)).2.1 5 rfl⟩⟩

/-- C2: When the registry lookup returns the zero address as resolver,
`resolve_name` (and `lookup_address`, via the same two-hop protocol) fails
with the `EnsError` kind carrying the looked-up name: no panic, no zero
address returned as a success value, and no second hop issued. -/
theorem ens_zero_resolver (p : Provider) (tr : List RpcCall) :
    (∀ name : String,
      p.transport (registryCall (p.ensAddr.getD Ens.ENS_ADDRESS) name)
        = .success (.rbytes (.abiAddress 0)) →
      p.resolve_name name tr
        = (.fail (.EnsError name),
           tr ++ [registryCall (p.ensAddr.getD Ens.ENS_ADDRESS) name])) ∧
    (∀ address : Nat,
      p.transport
          (registryCall (p.ensAddr.getD Ens.ENS_ADDRESS) (Ens.reverse_address address))
        = .success (.rbytes (.abiAddress 0)) →
      p.lookup_address address tr
        = (.fail (.EnsError (Ens.reverse_address address)),
           tr ++ [registryCall (p.ensAddr.getD Ens.ENS_ADDRESS)
                    (Ens.reverse_address address)])) := by
  constructor <;> intro x ht <;>
  · simp only [registryCall] at ht
    simp only [Provider.resolve_name, Provider.lookup_address,
      Provider.query_resolver, Provider.call, Provider.request, M.bind_eq,
      M.bind, M.pure_eq, M.pure, M.ofOutcome, M.failOut, registryCall,
      Option.getD_none]
    rw [ht]
    simp [decBytes, decode_bytes, abiDecode, addressFromTokens, M.failOut]

/-- Witness for C2 on a concrete transport whose registry answer is the
zero address. -/
theorem ens_zero_resolver_witness :
    tZeroResolver (registryCall Ens.ENS_ADDRESS "nobody.eth")
      = .success (.rbytes (.abiAddress 0)) ∧
    (Provider.new tZeroResolver).resolve_name "nobody.eth" []
      = (.fail (.EnsError "nobody.eth"), [registryCall Ens.ENS_ADDRESS "nobody.eth"]) ∧
    (Provider.new tZeroResolver).lookup_address 77 []
      = (.fail (.EnsError (Ens.reverse_address 77)),
         [registryCall Ens.ENS_ADDRESS (Ens.reverse_address 77)]) :=
  ⟨rfl, (ens_zero_resolver (Provider.new tZeroResolver) []).1 "nobody.eth" rfl,
   (ens_zero_resolver (Provider.new tZeroResolver) []).2 77 rfl⟩

/-- C1: `send_transaction` runs its steps in order: fill an unset
sender from the provider's default (`tx1`), issue exactly one
`eth_estimateGas` call iff the gas field is unset and store its result
(`tx2`), perform exactly one two-call name-resolution round-trip iff the
recipient is a name and rewrite the recipient (`tx3`), then issue
`eth_sendTransaction` and wrap the returned hash in a pending transaction
seeded with the provider's configured poll interval; any step's failure
aborts the whole operation with that step's error, issuing no later
call. -/
theorem send_transaction_pipeline (p : Provider) (tx : TransactionRequest)
    (blk : Option BlockId) (tr : List RpcCall) (g r a h : Nat)
    (tx1 tx2 tx3 : TransactionRequest)
    (htx1 : tx1 = if tx.from_.isNone then { tx with from_ := p.sender } else tx)
    (htx2 : tx2 = if tx1.gas.isNone then { tx1 with gas := some g } else tx1)
    (htx3 : tx3 = match tx2.to_ with
      | some (.name _) => { tx2 with to_ := some (.address a) }
      | _ => tx2) :
    ((tx1.gas.isNone → p.transport (estimateCall tx1) = .success (.ruint g)) →
     (∀ nm, tx2.to_ = some (.name nm) →
       p.transport (registryCall (p.ensAddr.getD Ens.ENS_ADDRESS) nm)
           = .success (.rbytes (.abiAddress r)) ∧
         r ≠ 0 ∧
         p.transport (resolverCall r Ens.ADDR_SELECTOR nm)
           = .success (.rbytes (.abiAddress a))) →
     p.transport (submitCall tx3) = .success (.rhash h) →
     p.send_transaction tx blk tr
       = (.ok ⟨h, p.get_interval⟩,
          tr ++ (if tx1.gas.isNone then [estimateCall tx1] else [])
             ++ (match tx2.to_ with
                 | some (.name nm) =>
                   [registryCall (p.ensAddr.getD Ens.ENS_ADDRESS) nm,
                    resolverCall r Ens.ADDR_SELECTOR nm]
                 | _ => [])
             ++ [submitCall tx3])) ∧
    (∀ msg, tx1.gas.isNone → p.transport (estimateCall tx1) = .failure msg →
      p.send_transaction tx blk tr
        = (.fail (.JsonRpcClientError msg), tr ++ [estimateCall tx1])) ∧
    ((tx1.gas.isNone → p.transport (estimateCall tx1) = .success (.ruint g)) →
     ∀ nm, tx2.to_ = some (.name nm) →
      p.transport (registryCall (p.ensAddr.getD Ens.ENS_ADDRESS) nm)
        = .success (.rbytes (.abiAddress 0)) →
      p.send_transaction tx blk tr
        = (.fail (.EnsError nm),
           tr ++ (if tx1.gas.isNone then [estimateCall tx1] else [])
              ++ [registryCall (p.ensAddr.getD Ens.ENS_ADDRESS) nm])) ∧
    ((tx1.gas.isNone → p.transport (estimateCall tx1) = .success (.ruint g)) →
     (∀ nm, tx2.to_ = some (.name nm) →
       p.transport (registryCall (p.ensAddr.getD Ens.ENS_ADDRESS) nm)
           = .success (.rbytes (.abiAddress r)) ∧
         r ≠ 0 ∧
         p.transport (resolverCall r Ens.ADDR_SELECTOR nm)
           = .success (.rbytes (.abiAddress a))) →
     ∀ msg, p.transport (submitCall tx3) = .failure msg →
      p.send_transaction tx blk tr
        = (.fail (.JsonRpcClientError msg),
           tr ++ (if tx1.gas.isNone then [estimateCall tx1] else [])
              ++ (match tx2.to_ with
                  | some (.name nm) =>
                    [registryCall (p.ensAddr.getD Ens.ENS_ADDRESS) nm,
                     resolverCall r Ens.ADDR_SELECTOR nm]
                  | _ => [])
              ++ [submitCall tx3])) := by
  refine ⟨fun hEst hRes hSend => ?_, fun msg hgn hEst => ?_,
    fun hEst nm hto hzero => ?_, fun hEst hRes msg hSend => ?_⟩
  all_goals
    simp only [Provider.send_transaction, M.bind_eq, Provider.estimate_gas]
    rw [← htx1]
  -- (i) happy path
  · by_cases hgn : tx1.gas.isNone
    · rw [if_pos hgn]
      rw [M.bind_apply_ok _ (request_apply_success p decUint "eth_estimateGas"
        [.vtx tx1] tr (hEst hgn) rfl)]
      simp only [M.pure_bind]
      have htx2' : tx2 = { tx1 with gas := some g } := by rw [htx2, if_pos hgn]
      rw [htx2'] at htx3
      cases hto : tx1.to_ with
      | none =>
        simp only [hto] at htx3
        simp only [hto]
        rw [htx3] at hSend
        exact pipeline_tail p _ h _ _ hSend
          (by simp [hgn, htx2', hto, htx3, estimateCall, List.append_assoc])
      | some na =>
        cases na with
        | address ad =>
          simp only [hto] at htx3
          simp only [hto]
          rw [htx3] at hSend
          exact pipeline_tail p _ h _ _ hSend
            (by simp [hgn, htx2', hto, htx3, estimateCall, List.append_assoc])
        | name nm =>
          obtain ⟨hreg, hr, hres⟩ := hRes nm (by rw [htx2']; exact hto)
          simp only [hto] at htx3
          simp only [hto]
          rw [M.bind_apply_ok _ (resolve_name_ok p nm r a _ hreg hr hres)]
          rw [htx3] at hSend
          exact pipeline_tail p _ h _ _ hSend
            (by simp [hgn, htx2', hto, htx3, estimateCall, List.append_assoc])
    · rw [if_neg hgn]
      simp only [M.pure_bind]
      have htx2' : tx2 = tx1 := by rw [htx2, if_neg hgn]
      rw [htx2'] at htx3
      cases hto : tx1.to_ with
      | none =>
        simp only [hto] at htx3
        simp only [hto]
        rw [htx3] at hSend
        exact pipeline_tail p _ h _ _ hSend
          (by simp [hgn, htx2', hto, htx3, List.append_assoc])
      | some na =>
        cases na with
        | address ad =>
          simp only [hto] at htx3
          simp only [hto]
          rw [htx3] at hSend
          exact pipeline_tail p _ h _ _ hSend
            (by simp [hgn, htx2', hto, htx3, List.append_assoc])
        | name nm =>
          obtain ⟨hreg, hr, hres⟩ := hRes nm (by rw [htx2']; exact hto)
          simp only [hto] at htx3
          simp only [hto]
          rw [M.bind_apply_ok _ (resolve_name_ok p nm r a _ hreg hr hres)]
          rw [htx3] at hSend
          exact pipeline_tail p _ h _ _ hSend
            (by simp [hgn, htx2', hto, htx3, List.append_assoc])
  -- (ii) gas-estimation failure aborts, issuing no later call
  · rw [if_pos hgn]
    rw [M.bind_apply_fail _ (request_apply_failure p decUint "eth_estimateGas"
      [.vtx tx1] tr hEst)]
    rfl
  -- (iii) unregistered-name failure aborts before the submit call
  · by_cases hgn : tx1.gas.isNone
    · rw [if_pos hgn]
      rw [M.bind_apply_ok _ (request_apply_success p decUint "eth_estimateGas"
        [.vtx tx1] tr (hEst hgn) rfl)]
      simp only [M.pure_bind]
      have htx2' : tx2 = { tx1 with gas := some g } := by rw [htx2, if_pos hgn]
      have hto1 : tx1.to_ = some (.name nm) := by rw [htx2'] at hto; exact hto
      simp only [hto1]
      rw [M.bind_apply_fail _ (resolve_name_zero p nm _ hzero)]
      simp [hgn, estimateCall, List.append_assoc]
    · rw [if_neg hgn]
      simp only [M.pure_bind]
      have htx2' : tx2 = tx1 := by rw [htx2, if_neg hgn]
      have hto1 : tx1.to_ = some (.name nm) := by rw [htx2'] at hto; exact hto
      simp only [hto1]
      rw [M.bind_apply_fail _ (resolve_name_zero p nm _ hzero)]
      simp [hgn, List.append_assoc]
  -- (iv) submission failure surfaces the transport error
  · by_cases hgn : tx1.gas.isNone
    · rw [if_pos hgn]
      rw [M.bind_apply_ok _ (request_apply_success p decUint "eth_estimateGas"
        [.vtx tx1] tr (hEst hgn) rfl)]
      simp only [M.pure_bind]
      have htx2' : tx2 = { tx1 with gas := some g } := by rw [htx2, if_pos hgn]
      rw [htx2'] at htx3
      cases hto : tx1.to_ with
      | none =>
        simp only [hto] at htx3
        simp only [hto]
        rw [htx3] at hSend
        exact pipeline_tail_fail p _ msg _ _ hSend
          (by simp [hgn, htx2', hto, htx3, estimateCall, List.append_assoc])
      | some na =>
        cases na with
        | address ad =>
          simp only [hto] at htx3
          simp only [hto]
          rw [htx3] at hSend
          exact pipeline_tail_fail p _ msg _ _ hSend
            (by simp [hgn, htx2', hto, htx3, estimateCall, List.append_assoc])
        | name nm =>
          obtain ⟨hreg, hr, hres⟩ := hRes nm (by rw [htx2']; exact hto)
          simp only [hto] at htx3
          simp only [hto]
          rw [M.bind_apply_ok _ (resolve_name_ok p nm r a _ hreg hr hres)]
          rw [htx3] at hSend
          exact pipeline_tail_fail p _ msg _ _ hSend
            (by simp [hgn, htx2', hto, htx3, estimateCall, List.append_assoc])
    · rw [if_neg hgn]
      simp only [M.pure_bind]
      have htx2' : tx2 = tx1 := by rw [htx2, if_neg hgn]
      rw [htx2'] at htx3
      cases hto : tx1.to_ with
      | none =>
        simp only [hto] at htx3
        simp only [hto]
        rw [htx3] at hSend
        exact pipeline_tail_fail p _ msg _ _ hSend
          (by simp [hgn, htx2', hto, htx3, List.append_assoc])
      | some na =>
        cases na with
        | address ad =>
          simp only [hto] at htx3
          simp only [hto]
          rw [htx3] at hSend
          exact pipeline_tail_fail p _ msg _ _ hSend
            (by simp [hgn, htx2', hto, htx3, List.append_assoc])
        | name nm =>
          obtain ⟨hreg, hr, hres⟩ := hRes nm (by rw [htx2']; exact hto)
          simp only [hto] at htx3
          simp only [hto]
          rw [M.bind_apply_ok _ (resolve_name_ok p nm r a _ hreg hr hres)]
          rw [htx3] at hSend
          exact pipeline_tail_fail p _ msg _ _ hSend
            (by simp [hgn, htx2', hto, htx3, List.append_assoc])

/-- Witness for C1: a request with no sender, no gas and a name recipient
is sent with the default sender filled in, the estimated gas stored, the
resolved recipient, and the default 7-second interval on the pending
transaction. -/
theorem send_transaction_pipeline_witness :
    tSend (estimateCall { from_ := some 1, to_ := some (.name "vitalik.eth") })
      = .success (.ruint 21000) ∧
    tSend (registryCall Ens.ENS_ADDRESS "vitalik.eth")
      = .success (.rbytes (.abiAddress 7)) ∧
    tSend (resolverCall 7 Ens.ADDR_SELECTOR "vitalik.eth")
      = .success (.rbytes (.abiAddress 8)) ∧
    tSend (submitCall { from_ := some 1, to_ := some (.address 8), gas := some 21000 })
      = .success (.rhash 99) ∧
    ((Provider.new tSend).with_sender 1).send_transaction
        { to_ := some (.name "vitalik.eth") } none []
      = (.ok ⟨99, 7000⟩,
         [estimateCall { from_ := some 1, to_ := some (.name "vitalik.eth") },
          registryCall Ens.ENS_ADDRESS "vitalik.eth",
          resolverCall 7 Ens.ADDR_SELECTOR "vitalik.eth",
          submitCall { from_ := some 1, to_ := some (.address 8), gas := some 21000 }]) := by
  refine ⟨by decide, by decide, by decide, by decide, ?_⟩
  have h := (send_transaction_pipeline ((Provider.new tSend).with_sender 1)
      { to_ := some (.name "vitalik.eth") } none [] 21000 7 8 99
      { from_ := some 1, to_ := some (.name "vitalik.eth") }
      { from_ := some 1, to_ := some (.name "vitalik.eth"), gas := some 21000 }
      { from_ := some 1, to_ := some (.address 8), gas := some 21000 }
      (by decide) (by decide) (by decide)).1
    (fun _ => by decide)
    (fun nm hnm => by
      obtain rfl : "vitalik.eth" = nm := by simpa using hnm
      exact ⟨by decide, by decide, by decide⟩)
    (by decide)
  simpa [Provider.get_interval, DEFAULT_POLL_INTERVAL] using h

/-- Counterexample to C3 as stated: with a registry response of raw,
non-ABI bytes, `resolve_name` does not hand the caller an error result —
the run's outcome is a panic (process abort in the Rust code). -/
theorem resolution_decode_cex :
    (Provider.new tRawResolver).resolve_name "bad.eth" []
      = (.panic "could not abi-decode bytes to address tokens",
         [registryCall Ens.ENS_ADDRESS "bad.eth"]) ∧
    ¬ ∃ e : ProviderError,
      ((Provider.new tRawResolver).resolve_name "bad.eth" []).1 = .fail e := by
  refine ⟨by decide, ?_⟩
  rintro ⟨e, he⟩
  have h1 : ((Provider.new tRawResolver).resolve_name "bad.eth" []).1
      = .panic "could not abi-decode bytes to address tokens" := by decide
  rw [h1] at he
  exact Outcome.noConfusion he

/-- C3 (amended): A registry/resolver response whose bytes cannot be
ABI-decoded as the expected value type makes the name-resolution
operations panic (the Rust code aborts via `expect`, as its own
`# Panics` docs state) — they do not surface an error result; only the
zero-resolver case is surfaced as an error (see C2). -/
theorem resolution_decode_failure_panics (p : Provider) (tr : List RpcCall) :
    (∀ (name : String) (b : BytesV),
      p.transport (registryCall (p.ensAddr.getD Ens.ENS_ADDRESS) name)
        = .success (.rbytes b) →
      abiDecode .address b = none →
      p.resolve_name name tr
        = (.panic "could not abi-decode bytes to address tokens",
           tr ++ [registryCall (p.ensAddr.getD Ens.ENS_ADDRESS) name])) ∧
    (∀ (address : Nat) (b : BytesV),
      p.transport
          (registryCall (p.ensAddr.getD Ens.ENS_ADDRESS) (Ens.reverse_address address))
        = .success (.rbytes b) →
      abiDecode .address b = none →
      p.lookup_address address tr
        = (.panic "could not abi-decode bytes to address tokens",
           tr ++ [registryCall (p.ensAddr.getD Ens.ENS_ADDRESS)
                    (Ens.reverse_address address)])) ∧
    (∀ (name : String) (r : Nat) (b : BytesV),
      p.transport (registryCall (p.ensAddr.getD Ens.ENS_ADDRESS) name)
        = .success (.rbytes (.abiAddress r)) →
      r ≠ 0 →
      p.transport (resolverCall r Ens.ADDR_SELECTOR name) = .success (.rbytes b) →
      abiDecode .address b = none →
      p.resolve_name name tr
        = (.panic "could not abi-decode bytes to address tokens",
           tr ++ [registryCall (p.ensAddr.getD Ens.ENS_ADDRESS) name,
                  resolverCall r Ens.ADDR_SELECTOR name])) := by
  refine ⟨fun nm b ht hd => ?_, fun ad b ht hd => ?_, fun nm r b hreg hr hres hd => ?_⟩
  · simp only [registryCall] at ht
    simp only [Provider.resolve_name, Provider.query_resolver, Provider.call,
      Provider.request, M.bind_eq, M.bind, M.pure_eq, M.pure, M.ofOutcome,
      M.failOut, registryCall, Option.getD_none]
    rw [ht]
    simp [decBytes, decode_bytes, hd]
  · simp only [registryCall] at ht
    simp only [Provider.lookup_address, Provider.query_resolver, Provider.call,
      Provider.request, M.bind_eq, M.bind, M.pure_eq, M.pure, M.ofOutcome,
      M.failOut, registryCall, Option.getD_none]
    rw [ht]
    simp [decBytes, decode_bytes, hd]
  · simp only [registryCall] at hreg
    simp only [resolverCall] at hres
    simp only [Provider.resolve_name, Provider.query_resolver, Provider.call,
      Provider.request, M.bind_eq, M.bind, M.pure_eq, M.pure, M.failOut,
      registryCall, resolverCall, Option.getD_none]
    rw [hreg]
    simp only [decBytes]
    rw [show decode_bytes addressFromTokens ParamType.address (BytesV.abiAddress r)
        = Outcome.ok r from rfl]
    simp only [M.ofOutcome, if_neg hr]
    simp only [Provider.request, M.bind]
    rw [hres]
    simp only [decBytes]
    have hpanic : decode_bytes addressFromTokens ParamType.address b
        = Outcome.panic "could not abi-decode bytes to address tokens" := by
      simp [decode_bytes, hd]
    rw [hpanic]
    simp [M.ofOutcome]

/-- Witness for the amended C3 on a concrete transport answering raw
bytes. -/
theorem resolution_decode_failure_panics_witness :
    abiDecode .address (.raw [1, 2, 3]) = none ∧
    (Provider.new tRawResolver).resolve_name "bad.eth" []
      = (.panic "could not abi-decode bytes to address tokens",
         [registryCall Ens.ENS_ADDRESS "bad.eth"]) :=
  ⟨rfl, (resolution_decode_failure_panics (Provider.new tRawResolver) []).1
    "bad.eth" (.raw [1, 2, 3]) rfl rfl⟩

/-- C5: `sign` strips an optional leading `"0x"` from the `eth_sign`
response, hex-decodes the remainder, and converts the bytes into the
fixed-size signature; bytes that are not signature-sized yield a
`CustomError` carrying the conversion's message, and a hex-decode failure
yields a `HexError`. -/
theorem sign_decodes (p : Provider) (data : List Nat) (fromA : Nat)
    (tr : List RpcCall) :
    (∀ (str : String) (s : List Char) (bs : List Nat) (withPfx : Bool),
      p.transport ⟨"eth_sign", [.vaddr fromA, .vdata data]⟩ = .success (.rstr str) →
      str.data = (if withPfx then ['0', 'x'] else []) ++ s →
      from_hex s = .ok bs →
      p.sign data fromA tr
        = (if bs.length = 65 then .ok ⟨bs⟩
           else .fail (.CustomError SIG_LEN_ERROR),
           tr ++ [⟨"eth_sign", [.vaddr fromA, .vdata data]⟩])) ∧
    (∀ (str : String) (e : FromHexError),
      p.transport ⟨"eth_sign", [.vaddr fromA, .vdata data]⟩ = .success (.rstr str) →
      from_hex (strip0x str.data) = .error e →
      p.sign data fromA tr
        = (.fail (.HexError e),
           tr ++ [⟨"eth_sign", [.vaddr fromA, .vdata data]⟩])) := by
  constructor
  · intro str s bs withPfx ht hdata hs
    have hstrip : strip0x str.data = s := by
      rw [hdata]
      cases withPfx with
      | false => simpa using strip0x_of_from_hex_ok s hs
      | true => simp [strip0x]
    simp only [Provider.sign, M.bind_eq]
    rw [M.bind_apply_ok _
      (request_apply_success p decStr "eth_sign" [.vaddr fromA, .vdata data] tr ht rfl)]
    rw [hstrip, hs]
    by_cases hl : bs.length = 65
    · simp [sigTryFrom, hl, M.pure]
    · simp [sigTryFrom, hl, M.failOut]
  · intro str e ht he
    simp only [Provider.sign, M.bind_eq]
    rw [M.bind_apply_ok _
      (request_apply_success p decStr "eth_sign" [.vaddr fromA, .vdata data] tr ht rfl)]
    rw [he]
    simp [M.failOut]

/-- Witness for C5: a two-byte signature string is rejected with the
`CustomError` carrying the conversion error message. -/
theorem sign_decodes_witness :
    tSign ⟨"eth_sign", [.vaddr 5, .vdata []]⟩ = .success (.rstr "0xab") ∧
    ("0xab" : String).data = (if true then ['0', 'x'] else []) ++ ['a', 'b'] ∧
    from_hex ['a', 'b'] = Except.ok [171] ∧
    (Provider.new tSign).sign [] 5 []
      = (.fail (.CustomError SIG_LEN_ERROR),
         [⟨"eth_sign", [.vaddr 5, .vdata []]⟩]) := by
  refine ⟨by decide, by decide, rfl, ?_⟩
  have h := (sign_decodes (Provider.new tSign) [] 5 []).1 "0xab" ['a', 'b'] [171]
    true (by decide) (by decide) rfl
  simpa using h

/-- C4: `get_storage_at` strips the `"0x"` prefix from the returned
hex string and left-pads it with zero digits to 64 digits before
interpreting it as the 32-byte storage word; a value that encodes fewer
than 32 bytes is therefore left-padded with zero bytes, and a full-length
value decodes to exactly its own bytes. -/
theorem storage_left_pad (p : Provider) (a loc : Nat) (blk : Option BlockId)
    (tr : List RpcCall) (str : String) (s : List Char) (withPfx : Bool)
    (bs : List Nat)
    (hhex : ∀ c ∈ s, (hexDigit? c).isSome)
    (hlen : s.length ≤ 64) (heven : s.length % 2 = 0)
    (hbs : pairsDecode s = .ok bs)
    (ht : p.transport ⟨"eth_getStorageAt",
        [.vaddr a, .vhash loc, .vblockId (blk.getD (.number .latest))]⟩
      = .success (.rstr str))
    (hdata : str.data = (if withPfx then ['0', 'x'] else []) ++ s) :
    p.get_storage_at (.address a) loc blk tr
      = (.ok (List.replicate (32 - s.length / 2) 0 ++ bs),
         tr ++ [⟨"eth_getStorageAt",
           [.vaddr a, .vhash loc, .vblockId (blk.getD (.number .latest))]⟩]) ∧
    (s.length = 64 → List.replicate (32 - s.length / 2) 0 ++ bs = bs) := by
  have hbl : 2 * bs.length = s.length := pairsDecode_length s bs hbs
  have hrep : replace0x str.data = s := by
    rw [hdata]
    cases withPfx with
    | false => simpa using replace0x_of_all_hex s hhex
    | true => simp [replace0x, replace0x_of_all_hex s hhex]
  constructor
  · simp only [Provider.get_storage_at, M.bind_eq, M.pure_eq, M.pure_bind]
    rw [M.bind_apply_ok _ (request_apply_success p decStr "eth_getStorageAt"
      [.vaddr a, .vhash loc, .vblockId (blk.getD (.number .latest))] tr ht rfl)]
    rw [hrep]
    have hkey : from_hex (List.replicate (64 - s.length) '0' ++ s)
        = .ok (List.replicate (32 - s.length / 2) 0 ++ bs) := by
      have hm : 2 * (32 - s.length / 2) = 64 - s.length := by omega
      unfold from_hex
      rw [if_neg (by
        simp only [List.length_append, List.length_replicate]
        omega)]
      rw [← hm, pairsDecode_pad, hbs]
    rw [hkey]
    have h32 : (List.replicate (32 - s.length / 2) 0 ++ bs).length = 32 := by
      simp only [List.length_append, List.length_replicate]
      omega
    simp [h32, M.pure]
  · intro h64
    have hz : 32 - s.length / 2 = 0 := by omega
    simp [hz]

/-- Witness for C4: the 1-byte storage value `"0x2a"` is left-padded to
31 zero bytes followed by byte 42. -/
theorem storage_left_pad_witness :
    pairsDecode ['2', 'a'] = Except.ok [42] ∧
    tStorage ⟨"eth_getStorageAt", [.vaddr 1, .vhash 0, .vblockId (.number .latest)]⟩
      = .success (.rstr "0x2a") ∧
    (Provider.new tStorage).get_storage_at (.address 1) 0 none []
      = (.ok (List.replicate 31 0 ++ [42]),
         [⟨"eth_getStorageAt", [.vaddr 1, .vhash 0, .vblockId (.number .latest)]⟩]) := by
  refine ⟨rfl, by decide, ?_⟩
  have h := (storage_left_pad (Provider.new tStorage) 1 0 none [] "0x2a" ['2', 'a']
    true [42] (by decide) (by decide) (by decide) rfl (by decide)
    (by decide)).1
  simpa using h

end Eth
